import Mathlib

/-!
Verification of the entry browsing/editing core of the `of-tui` terminal
navigator: the value-classification pipeline (`entry_meta.py`), the metadata
cache, the dictionary-tree navigation model (`browser.py`), and the background
verification (syntax check) pipeline (`app.py`).

Pure Python string operations (`str.split`, `str.strip`, `int(...)`,
`float(...)`, substring tests) are embedded as executable functions on
`List Char`.  The external dictionary engine (`openfoam.py`, absent from the
sources) is an oracle record; the validator library (`validation.py`, absent
from the sources) is modelled from the specification.
-/

namespace OfTui

/-! ## Python string primitives -/

/-- Whitespace characters recognised by Python `str.split()` / `str.strip()`
(ASCII subset: space, tab, newline, carriage return, vertical tab, form feed). -/
def pyIsSpace (c : Char) : Bool :=
  c == ' ' || c == '\t' || c == '\n' || c == '\r' ||
  c == Char.ofNat 11 || c == Char.ofNat 12

/-- Python `str.lower()` (ASCII). -/
def pyLower (l : List Char) : List Char :=
  l.map Char.toLower

/-- `value.replace(";", " ")`. -/
def semiToSpace (l : List Char) : List Char :=
  l.map (fun c => if c == ';' then ' ' else c)

/-- Helper for `pySplit`: accumulates the current word (reversed). -/
def pySplitAux : List Char → List Char → List (List Char)
  | [], acc => if acc.isEmpty then [] else [acc.reverse]
  | c :: rest, acc =>
    if pyIsSpace c then
      if acc.isEmpty then pySplitAux rest []
      else acc.reverse :: pySplitAux rest []
    else pySplitAux rest (c :: acc)

/-- Python `str.split()` with no separator: split on whitespace runs,
producing no empty tokens. -/
def pySplit (l : List Char) : List (List Char) :=
  pySplitAux l []

/-- Python `str.strip()`: drop leading and trailing whitespace. -/
def pyStrip (l : List Char) : List Char :=
  ((l.dropWhile pyIsSpace).reverse.dropWhile pyIsSpace).reverse

/-- Python `str.rstrip(";")`: drop all trailing semicolons. -/
def pyRstripSemi (l : List Char) : List Char :=
  (l.reverse.dropWhile (fun c => c == ';')).reverse

/-- `pyStrip` packaged on `String`. -/
def pyStripStr (s : String) : String :=
  ⟨pyStrip s.data⟩

/-- Boolean list matcher: does `l` start with `p`? -/
def startsWithC : List Char → List Char → Bool
  | [], _ => true
  | _ :: _, [] => false
  | a :: as, b :: bs => a == b && startsWithC as bs

/-- Python `sub in s` substring test on char lists. -/
def isInfixOfC (sub : List Char) : List Char → Bool
  | [] => startsWithC sub []
  | l@(_ :: rest) => startsWithC sub l || isInfixOfC sub rest

/-- `sub in s` for strings (Python `in` on `str`). -/
def strContainsSub (s sub : String) : Bool :=
  isInfixOfC sub.data s.data

/-- Split on the literal dot character, keeping empty segments
(Python `"a.b".split(".")`). -/
def splitDotC : List Char → List (List Char)
  | [] => [[]]
  | c :: rest =>
    if c == '.' then [] :: splitDotC rest
    else
      match splitDotC rest with
      | g :: gs => (c :: g) :: gs
      | [] => [[c]]

/-- Python `full_key.split(".")`. -/
def splitDot (s : String) : List String :=
  (splitDotC s.data).map (fun g => ⟨g⟩)

/-- `sep.join(parts)` for strings. -/
def joinStr (sep : String) : List String → String
  | [] => ""
  | [s] => s
  | s :: rest => s ++ sep ++ joinStr sep rest

/-- Python `list.index(x)` as an optional first index. -/
def idxOf (x : String) : List String → Option Nat
  | [] => none
  | y :: rest => if y = x then some 0 else (idxOf x rest).map (· + 1)

/-- Code-point lexicographic `a <= b` on char lists (Python string order). -/
def lexLe : List Char → List Char → Bool
  | [], _ => true
  | _ :: _, [] => false
  | a :: as, b :: bs =>
    if a.val < b.val then true
    else if b.val < a.val then false
    else lexLe as bs

/-- Insertion step for `sortStrs`. -/
def insertSorted (s : String) : List String → List String
  | [] => [s]
  | t :: rest => if lexLe s.data t.data then s :: t :: rest else t :: insertSorted s rest

/-- Python `sorted(...)` on strings (insertion sort, code-point order). -/
def sortStrs (l : List String) : List String :=
  l.foldr insertSorted []

/-- Deduplication preserving first occurrences (Python `set(...)` as far as
membership and the sorted rendering are concerned). -/
def dedupStrs (l : List String) : List String :=
  l.foldl (fun acc s => if acc.contains s then acc else acc ++ [s]) []

/-! ## Python numeric literal recognition (`int(...)` / `float(...)`) -/

/-- Consume the tail of a digit run: digits with single underscores allowed
between digits.  `none` means the run is malformed (dangling underscore). -/
def scanDigitsTail : List Char → Option (List Char)
  | [] => some []
  | ['_'] => none
  | '_' :: c :: rest => if c.isDigit then scanDigitsTail rest else none
  | c :: rest => if c.isDigit then scanDigitsTail rest else some (c :: rest)

/-- Consume a nonempty digit run (underscore grouping as in Python literals);
returns the remaining input or `none` if no valid run starts here. -/
def scanDigits : List Char → Option (List Char)
  | [] => none
  | c :: rest => if c.isDigit then scanDigitsTail rest else none

/-- Drop one optional leading sign. -/
def dropSign : List Char → List Char
  | '+' :: rest => rest
  | '-' :: rest => rest
  | l => l

/-- Does `int(s)` succeed on this (whitespace-free) text? -/
def pyIntParsesL (l : List Char) : Bool :=
  scanDigits (dropSign l) == some []

/-- Exponent part after `e`/`E`: optional sign then digits consuming all input. -/
def floatExpPart (l : List Char) : Bool :=
  scanDigits (dropSign l) == some []

/-- After the fractional digits: end of input or an exponent. -/
def floatAfterFrac : List Char → Bool
  | [] => true
  | 'e' :: rest => floatExpPart rest
  | 'E' :: rest => floatExpPart rest
  | _ => false

/-- After the integer digits: end, a dot (with optional fraction), or an
exponent. -/
def floatAfterInt : List Char → Bool
  | [] => true
  | '.' :: rest =>
    (match scanDigits rest with
     | some r2 => floatAfterFrac r2
     | none => floatAfterFrac rest)
  | 'e' :: rest => floatExpPart rest
  | 'E' :: rest => floatExpPart rest
  | _ => false

/-- Finite float literal body (no sign): digits [. digits] [exp] or . digits [exp]. -/
def floatFinite (l : List Char) : Bool :=
  match scanDigits l with
  | some rest => floatAfterInt rest
  | none =>
    match l with
    | '.' :: rest =>
      (match scanDigits rest with
       | some r2 => floatAfterFrac r2
       | none => false)
    | _ => false

/-- Does `float(s)` succeed on this (whitespace-free) text?  Covers finite
literals plus the `inf`/`infinity`/`nan` spellings. -/
def pyFloatParsesL (l : List Char) : Bool :=
  let body := dropSign l
  let low := pyLower body
  low == "inf".data || low == "infinity".data || low == "nan".data || floatFinite body

/-! ## Validator library

The validators live in `src/of_tui/validation.py`, which is absent from the
sources; they are modelled from the specification (section 4.1). -/

/-- A validator maps a proposed text to `none` (valid) or an error message. -/
abbrev Validator := String → Option String

/-- The strip-semicolon-strip cleaning used before validating a scalar
(`v.strip().rstrip(";").strip()`). -/
def cleanScalar (v : String) : List Char :=
  pyStrip (pyRstripSemi (pyStrip v.data))

/-- Modelled from the spec: `non_empty` from the absent
`src/of_tui/validation.py` — error iff the trimmed input is empty. -/
def non_empty : Validator := fun v =>
  if (pyStrip v.data).isEmpty then some "Value must not be empty." else none

/-- Modelled from the spec: `as_int` from the absent
`src/of_tui/validation.py` — error unless the semicolon-stripped, trimmed
text parses as a base-10 integer literal. -/
def as_int : Validator := fun v =>
  if pyIntParsesL (cleanScalar v) then none else some "Value must be an integer."

/-- Modelled from the spec: `as_float` from the absent
`src/of_tui/validation.py` — error unless the text parses as a
floating-point literal (integer literals are accepted too). -/
def as_float : Validator := fun v =>
  if pyFloatParsesL (cleanScalar v) then none else some "Value must be a number."

/-- Modelled from the spec: `bool_flag` from the absent
`src/of_tui/validation.py` — error unless the value case-insensitively
matches one of the fixed accepted spellings. -/
def bool_flag : Validator := fun v =>
  let t := pyLower (cleanScalar v)
  if ["on", "off", "true", "false", "yes", "no", "0", "1"].any
      (fun a => a.data == t) then none
  else some "Value must be a boolean flag."

/-- Modelled from the spec: `vector_values` from the absent
`src/of_tui/validation.py` — error unless the text, after stripping a single
enclosing pair of parentheses, splits on whitespace into exactly three tokens
that each parse as floats. -/
def vector_values : Validator := fun v =>
  let t := pyStrip v.data
  if startsWithC "(".data t && startsWithC ")".data t.reverse then
    let inner := (t.drop 1).dropLast
    let toks := pySplit inner
    if toks.length == 3 && toks.all pyFloatParsesL then none
    else some "Value must be a vector of three numbers."
  else some "Value must be a vector of three numbers."

/-! ## Type inference (`choose_validator`, from `src/of_tui/entry_meta.py`) -/

/-- Key-name heuristic `_guess_validator` (entry_meta.py lines 172-183). -/
def guess_validator (key : String) : Validator :=
  let lower : String := ⟨pyLower key.data⟩
  if ["on", "off", "switch", "enable", "disable"].any (strContainsSub lower) then
    bool_flag
  else if ["iter", "step", "n", "count"].any (strContainsSub lower) then
    as_int
  else if ["tol", "dt", "time", "coeff", "alpha", "beta"].any (strContainsSub lower) then
    as_float
  else
    non_empty

/-- The label `choose_validator` attaches to the heuristic fallback.  The
source derives it by identity-comparing the function returned by
`_guess_validator`; branching on the same key conditions is equivalent. -/
def guess_label (key : String) : String :=
  let lower : String := ⟨pyLower key.data⟩
  if ["on", "off", "switch", "enable", "disable"].any (strContainsSub lower) then
    "boolean-like"
  else if ["iter", "step", "n", "count"].any (strContainsSub lower) then
    "integer"
  else if ["tol", "dt", "time", "coeff", "alpha", "beta"].any (strContainsSub lower) then
    "float"
  else
    "text"

/-- Rule 1 of `choose_validator`: the raw value contains `(` and `)` and
passes the vector validator. -/
def vector_shape (value : String) : Bool :=
  (value.data.any (fun c => c == '(')) && (value.data.any (fun c => c == ')')) &&
    (vector_values value).isNone

/-- `tokens = value.replace(";", " ").split()` (entry_meta.py line 135). -/
def pyTokens (value : String) : List (List Char) :=
  pySplit (semiToSpace value.data)

/-- `choose_validator` (entry_meta.py lines 117-162): vector shape first,
then last-token integer/float inference, then the key-name heuristic. -/
def choose_validator (key value : String) : Validator × String :=
  if vector_shape value then
    (vector_values, "vector")
  else
    match (pyTokens value).getLast? with
    | some last =>
      if pyIntParsesL last && !(last.any (fun c => c == '.')) &&
          !((pyLower last).any (fun c => c == 'e')) then
        (as_int, "integer")
      else if pyFloatParsesL last then
        (as_float, "float")
      else
        (guess_validator key, guess_label key)
    | none => (guess_validator key, guess_label key)

/-! ## External dictionary engine and the entry metadata cache -/

/-- Modelled from the spec: the per-key query surface of the external
dictionary engine (`src/of_tui/openfoam.py`, absent from the sources),
specialised to one open file session (section 6 of the spec).
`read_entry` returns `none` where the Python function raises
`OpenFOAMError`. -/
structure Engine where
  read_entry : String → Option String
  list_subkeys : String → List String
  get_entry_comments : String → List String
  get_entry_info : String → List String
  get_entry_enum_values : String → List String

/-- One cached tuple `(value, type_label, subkeys, comments, info_lines)`. -/
structure CachedEntry where
  value : String
  type_label : String
  subkeys : List String
  comments : List String
  info_lines : List String
deriving DecidableEq

/-- The per-file metadata cache (a Python dict keyed by the dotted path). -/
abbrev Cache := List (String × CachedEntry)

/-- Dict read `cache.get(k)` (first matching key wins; inserts keep keys
unique). -/
def alookup (k : String) : Cache → Option CachedEntry
  | [] => none
  | (k2, v) :: rest => if k2 = k then some v else alookup k rest

/-- Dict write `cache[k] = v`: replace in place or append. -/
def ainsert (k : String) (v : CachedEntry) : Cache → Cache
  | [] => [(k, v)]
  | (k2, v2) :: rest =>
    if k2 = k then (k2, v) :: rest else (k2, v2) :: ainsert k v rest

/-- The metadata record returned to the browser. -/
structure EntryMeta where
  value : String
  type_label : String
  subkeys : List String
  comments : List String
  info_lines : List String
  validator : Validator

/-- A single-quote character, used to reproduce quoted fragments of the
Python message strings. -/
def sq : String :=
  ⟨[Char.ofNat 39]⟩

/-- `_read_optional_entry` (entry_meta.py lines 165-169): read and strip,
`none` on an engine error. -/
def read_optional_entry (eng : Engine) (key : String) : Option String :=
  (eng.read_entry key).map pyStripStr

/-- `boundary_condition_info` (entry_meta.py lines 88-114): extra info lines
for keys under a `boundaryField.<patch>` path. -/
def boundary_condition_info (eng : Engine) (full_key : String) : List String :=
  let parts := splitDot full_key
  match idxOf "boundaryField" parts with
  | none => []
  | some idx =>
    if parts.length ≤ idx + 1 then []
    else
      let patch := parts.getD (idx + 1) ""
      let patch_key := joinStr "." (parts.take (idx + 2))
      let missingType := "BC " ++ patch ++ ": missing required entry " ++ sq ++ "type" ++ sq
      let tline :=
        match read_optional_entry eng (patch_key ++ ".type") with
        | some s =>
          if s ≠ "" then "BC " ++ patch ++ " type: " ++ s else missingType
        | none => missingType
      let vline :=
        match read_optional_entry eng (patch_key ++ ".value") with
        | some s =>
          if s ≠ "" then "BC " ++ patch ++ " value: " ++ s
          else "BC " ++ patch ++ ": value entry not found"
        | none => "BC " ++ patch ++ ": value entry not found"
      [tline, vline]

/-- The text cleaning the enum validator applies before the membership test
(`v.strip().rstrip(";").strip()`, entry_meta.py line 51). -/
def enum_clean (v : String) : String :=
  ⟨cleanScalar v⟩

/-- The dynamically built enum validator (entry_meta.py lines 50-54):
accept iff the cleaned text equals a reported member. -/
def enum_validator (enum_values : List String) : Validator := fun v =>
  if enum_clean v ∈ enum_values then none
  else
    some ("Value must be one of: " ++
      joinStr ", " (sortStrs (dedupStrs enum_values)) ++ ".")

/-- `get_entry_metadata` (entry_meta.py lines 17-62).  On a cache hit only
the validator is re-derived (via `choose_validator`); on a miss the engine is
queried, the enum set (when nonempty) overrides the heuristic classification,
and the tuple is stored.  Returns the metadata and the updated cache. -/
def get_entry_metadata (eng : Engine) (cache : Cache) (full_key : String) :
    EntryMeta × Cache :=
  match alookup full_key cache with
  | some ce =>
    ({ value := ce.value, type_label := ce.type_label, subkeys := ce.subkeys,
       comments := ce.comments, info_lines := ce.info_lines,
       validator := (choose_validator full_key ce.value).1 }, cache)
  | none =>
    let value :=
      match eng.read_entry full_key with
      | some v => v
      | none => "<error reading value>"
    let chosen := choose_validator full_key value
    let subkeys := eng.list_subkeys full_key
    let comments := eng.get_entry_comments full_key
    let info0 := eng.get_entry_info full_key ++ boundary_condition_info eng full_key
    let ev := eng.get_entry_enum_values full_key
    let validator := if ev.isEmpty then chosen.1 else enum_validator ev
    let type_label := if ev.isEmpty then chosen.2 else "enum"
    let info_lines :=
      if ev.isEmpty then info0
      else info0 ++ ["Allowed values: " ++ joinStr ", " ev]
    ({ value := value, type_label := type_label, subkeys := subkeys,
       comments := comments, info_lines := info_lines, validator := validator },
     ainsert full_key ⟨value, type_label, subkeys, comments, info_lines⟩ cache)

/-- `refresh_entry_cache` (entry_meta.py lines 65-85): after an edit,
re-resolve the single edited key and overwrite its tuple; an engine read
error leaves the cache untouched.  The enum set is not consulted. -/
def refresh_entry_cache (eng : Engine) (cache : Cache) (full_key : String) :
    Cache :=
  match eng.read_entry full_key with
  | none => cache
  | some value =>
    let chosen := choose_validator full_key value
    ainsert full_key
      ⟨value, chosen.2, eng.list_subkeys full_key,
       eng.get_entry_comments full_key,
       eng.get_entry_info full_key ++ boundary_condition_info eng full_key⟩
      cache

/-! ## Navigation model (`entry_browser_screen`, from `src/of_tui/browser.py`) -/

/-- The browser's tree-walk state: current level prefix, sibling keys, the
selected index, and the frame stack of `(base_entry, keywords, index)`
triples pushed on descend (browser.py lines 40-41, 58). -/
structure NavState where
  baseKey : Option String
  keywords : List String
  index : Nat
  stack : List (Option String × List String × Nat)
deriving DecidableEq

/-- The dotted path of the selected entry
(`key if base_entry is None else f"{base_entry}.{key}"`, browser.py line 63). -/
def browserFullKey (s : NavState) : String :=
  match s.baseKey with
  | none => s.keywords.getD s.index ""
  | some b => b ++ "." ++ s.keywords.getD s.index ""

/-- Descend into the selected sub-dictionary (browser.py lines 119-124):
push the current triple, move the base to the selected full key, adopt the
sub-keys as siblings, reset the index to 0. -/
def descend (s : NavState) (subkeys : List String) : NavState :=
  { baseKey := some (browserFullKey s), keywords := subkeys, index := 0,
    stack := (s.baseKey, s.keywords, s.index) :: s.stack }

/-- Ascend one level (browser.py lines 100-104): pop the last frame;
`none` means the stack was empty and the browser exits. -/
def ascend (s : NavState) : Option NavState :=
  match s.stack with
  | [] => none
  | (b, kw, i) :: rest => some { baseKey := b, keywords := kw, index := i, stack := rest }

/-! ## Entry search (`_search_entries` / `_entry_browser_search`,
from `src/of_tui/browser.py`) -/

/-- The resolved value the engine yields for a key, with the error sentinel
substituted on failure (entry_meta.py lines 33-36). -/
def engineValue (eng : Engine) (key : String) : String :=
  match eng.read_entry key with
  | some v => v
  | none => "<error reading value>"

/-- The lowercase haystack searched for one entry:
`" ".join([key, value] + comments).lower()` (browser.py line 449). -/
def searchHaystack (eng : Engine) (key : String) : List Char :=
  pyLower (joinStr " " (key :: engineValue eng key :: eng.get_entry_comments key)).data

/-- Does the entry named `key` match the query (browser.py line 450)? -/
def searchHit (eng : Engine) (query key : String) : Bool :=
  isInfixOfC (pyLower query.data) (searchHaystack eng key)

/-- The cyclic index sequence the search visits:
`(current_index + direction * step) % n` for `step`, `step+1`, ... -/
def scanIndices (i : Nat) (d : Int) (n : Nat) : Nat → Nat → List Nat
  | _, 0 => []
  | step, r + 1 =>
    (((i : Int) + d * (step : Int)).emod (n : Int)).toNat ::
      scanIndices i d n (step + 1) r

/-- The scan loop of `_search_entries` (browser.py lines 442-451), threading
the metadata cache through each probe. -/
def search_entries_loop (eng : Engine) (kws : List String) (i : Nat)
    (qlow : List Char) (d : Int) : Nat → Nat → Cache → Option Nat
  | _, 0, _ => none
  | step, r + 1, cache =>
    let n := kws.length
    let idx := (((i : Int) + d * (step : Int)).emod (n : Int)).toNat
    let key := kws.getD idx ""
    let res := get_entry_metadata eng cache key
    let hay := pyLower (joinStr " " (key :: res.1.value :: res.1.comments)).data
    if isInfixOfC qlow hay then some idx
    else search_entries_loop eng kws i qlow d (step + 1) r res.2

/-- `_search_entries` (browser.py lines 427-453): scan at most `n` steps
starting at `(current_index + direction) % n`; `none` when nothing matches. -/
def search_entries (eng : Engine) (cache : Cache) (kws : List String)
    (current_index : Nat) (query : String) (d : Int) : Option Nat :=
  if kws.isEmpty then none
  else search_entries_loop eng kws current_index (pyLower query.data) d 1 kws.length cache

/-- The caller-visible outcome of a non-empty search
(`_entry_browser_search`, browser.py lines 403-417, and the index update at
lines 140-146): the new index, plus the no-match message when nothing was
found (in which case the index is left unchanged). -/
def entry_browser_search_outcome (eng : Engine) (cache : Cache)
    (kws : List String) (index : Nat) (query : String) : Nat × Option String :=
  match search_entries eng cache kws index query 1 with
  | some j => (j, none)
  | none => (index, some ("No matches for " ++ sq ++ query ++ sq ++ "."))

/-- A cache is consistent with the engine when every cached tuple carries
the engine's value (or the error sentinel) and the engine's comments for its
key — the invariant every cache populated by `get_entry_metadata` and
`refresh_entry_cache` satisfies. -/
def cacheConsistent (eng : Engine) (cache : Cache) : Prop :=
  ∀ k ce, alookup k cache = some ce →
    ce.value = engineValue eng k ∧ ce.comments = eng.get_entry_comments k

/-! ## Verification pipeline (`_start_check_thread`, from `src/of_tui/app.py`) -/

/-- Per-file verification outcome (`FileCheckResult` of the absent
`src/of_tui/openfoam.py`): spec section 3. -/
structure FileCheckResult where
  checked : Bool
  errors : List String
  warnings : List String
deriving DecidableEq

/-- The lock-guarded shared fields of a verification run
(`AppState.check_*`, app.py lines 63-68).  `check_results` is an association
list keyed by file path. -/
structure CheckState where
  check_in_progress : Bool
  check_total : Nat
  check_done : Nat
  check_current : Option String
  check_results : Option (List (String × FileCheckResult))
deriving DecidableEq

/-- Lookup in the results map. -/
def rlookup (k : String) : List (String × FileCheckResult) → Option FileCheckResult
  | [] => none
  | (k2, v) :: rest => if k2 = k then some v else rlookup k rest

/-- Write into the results map (`state.check_results[path] = result`). -/
def rinsert (k : String) (v : FileCheckResult) :
    List (String × FileCheckResult) → List (String × FileCheckResult)
  | [] => [(k, v)]
  | (k2, v2) :: rest =>
    if k2 = k then (k2, v) :: rest else (k2, v2) :: rinsert k v rest

/-- Modelled from the spec: the terminal result the absent `verify_case`
(`src/of_tui/openfoam.py`) stores for one file — always `checked = true`,
with the file's errors and warnings (spec section 4.5); `check` abstracts
the per-file error/warning outcome. -/
def fileResult (check : String → List String × List String) (f : String) :
    FileCheckResult :=
  ⟨true, (check f).1, (check f).2⟩

/-- The worker's initial lock-guarded block (app.py lines 665-670):
in-progress, total snapshot, zero done, no current file, empty results. -/
def initState (files : List String) : CheckState :=
  { check_in_progress := true, check_total := files.length, check_done := 0,
    check_current := none, check_results := some [] }

/-- `result_callback` (app.py lines 677-681): store this file's terminal
result under the lock. -/
def resultInsert (check : String → List String × List String)
    (s : CheckState) (f : String) : CheckState :=
  { s with
    check_results := some (rinsert f (fileResult check f) (s.check_results.getD [])) }

/-- `progress_callback` (app.py lines 672-675): bump `done` and set the
current file under the lock. -/
def progressUpdate (s : CheckState) (f : String) : CheckState :=
  { s with check_done := s.check_done + 1, check_current := some f }

/-- The lock-protected states the worker publishes while sweeping the given
files, two per file: after storing its result and after the progress bump. -/
def stepStates (check : String → List String × List String) :
    CheckState → List String → List CheckState
  | _, [] => []
  | s, f :: rest =>
    let s1 := resultInsert check s f
    let s2 := progressUpdate s1 f
    s1 :: s2 :: stepStates check s2 rest

/-- The state reached after sweeping the given files. -/
def runAccum (check : String → List String × List String) :
    CheckState → List String → CheckState
  | s, [] => s
  | s, f :: rest => runAccum check (progressUpdate (resultInsert check s f) f) rest

/-- Modelled from the spec: the mapping the absent `verify_case`
(`src/of_tui/openfoam.py`) returns after a full sweep — one terminal result
per discovered file (spec sections 4.5 and 6). -/
def verify_case_results (files : List String)
    (check : String → List String × List String) :
    List (String × FileCheckResult) :=
  files.foldl (fun acc f => rinsert f (fileResult check f) acc) []

/-- The worker's final lock-guarded block (app.py lines 683-691).
`procFailAfter = some j` means a process-level exception escaped
`verify_case` after `j` files had completed: the handler substitutes an
empty mapping.  On success the mapping returned by `verify_case` is
installed.  Either way `check_in_progress` becomes false. -/
def runFinal (files : List String) (check : String → List String × List String)
    (procFailAfter : Option Nat) : CheckState :=
  match procFailAfter with
  | none =>
    { runAccum check (initState files) files with
      check_results := some (verify_case_results files check),
      check_in_progress := false }
  | some j =>
    { runAccum check (initState files) (files.take j) with
      check_results := some [], check_in_progress := false }

/-- The full sequence of lock-guarded states one verification run publishes,
from the initial block to the final block. -/
def runTrace (files : List String) (check : String → List String × List String)
    (procFailAfter : Option Nat) : List CheckState :=
  let s0 := initState files
  let processed :=
    match procFailAfter with
    | none => files
    | some j => files.take j
  s0 :: stepStates check s0 processed ++ [runFinal files check procFailAfter]

/-- Every entry stored in `s` is still present with the same value in `s2`. -/
def entriesKeptB (s s2 : CheckState) : Bool :=
  (s.check_results.getD []).all
    (fun pr => decide (rlookup pr.1 (s2.check_results.getD []) = some pr.2))

/-- No stored result is removed or replaced across any pair of successive
states of the trace. -/
def tracePreservedB : List CheckState → Bool
  | s :: s2 :: rest => entriesKeptB s s2 && tracePreservedB (s2 :: rest)
  | _ => true

/-- Every result stored in any state of the trace is terminal
(`checked = true`). -/
def allTerminalB (trace : List CheckState) : Bool :=
  trace.all (fun s => (s.check_results.getD []).all (fun pr => pr.2.checked))

/-! ## Result labels (`_check_labels`, from `src/of_tui/app.py`) -/

/-- The per-file status text (app.py lines 788-795). -/
def check_label_status (check : Option FileCheckResult) : String :=
  match check with
  | none => "Not checked"
  | some c =>
    if !c.checked then "Not checked"
    else if !c.errors.isEmpty then "ERROR (" ++ Nat.repr c.errors.length ++ ")"
    else if !c.warnings.isEmpty then "Warn (" ++ Nat.repr c.warnings.length ++ ")"
    else "OK"

/-- `_check_labels` (app.py lines 778-797): one `"{rel}: {status}"` label and
one looked-up result per file; a `None` results map reads as empty
(`state.check_results or {}`).  `relOf` stands for `relative_to(case_path)`. -/
def check_labels (relOf : String → String) (files : List String)
    (results : Option (List (String × FileCheckResult))) :
    List String × List (Option FileCheckResult) :=
  let rl := results.getD []
  (files.map (fun f => relOf f ++ ": " ++ check_label_status (rlookup f rl)),
   files.map (fun f => rlookup f rl))

/-! ## Concrete fixtures used to instantiate the theorems -/

/-- A session engine reporting value `"bar"` and the enum set `["foo"]` for
the key `"zq"` (a key matching none of the key-name heuristics). -/
def demoEnumEngine : Engine :=
  { read_entry := fun k => if k = "zq" then some "bar" else none,
    list_subkeys := fun _ => [],
    get_entry_comments := fun _ => [],
    get_entry_info := fun _ => [],
    get_entry_enum_values := fun k => if k = "zq" then ["foo"] else [] }

/-- A session engine with a readable value for every key and no enum sets. -/
def demoSearchEngine : Engine :=
  { read_entry := fun k => some ("value " ++ k),
    list_subkeys := fun _ => [],
    get_entry_comments := fun _ => [],
    get_entry_info := fun _ => [],
    get_entry_enum_values := fun _ => [] }

/-- A cache holding an unrelated key, used to exercise the frame property of
the post-edit refresh. -/
def demoCache : Cache :=
  [("other", ⟨"x", "text", [], [], []⟩)]

/-- A per-file check outcome with no errors and no warnings. -/
def demoCheck : String → List String × List String :=
  fun _ => ([], [])

/-! ## Helper lemmas -/

theorem alookup_ainsert_self (k : String) (v : CachedEntry) (c : Cache) :
    alookup k (ainsert k v c) = some v := by
  induction c with
  | nil => simp [ainsert, alookup]
  | cons p rest ih =>
    obtain ⟨k2, v2⟩ := p
    by_cases hk : k2 = k <;> simp [ainsert, alookup, hk, ih]

theorem alookup_ainsert_ne (k k2 : String) (v : CachedEntry) (c : Cache)
    (h : k2 ≠ k) : alookup k2 (ainsert k v c) = alookup k2 c := by
  have h2 : ¬k = k2 := fun hc => h hc.symm
  induction c with
  | nil => simp [ainsert, alookup, h2]
  | cons p rest ih =>
    obtain ⟨k3, v3⟩ := p
    by_cases hk : k3 = k
    · subst hk
      have h3 : ¬k3 = k2 := fun hc => h hc.symm
      simp [ainsert, alookup, h3]
    · by_cases hk2 : k3 = k2
      · subst hk2
        simp [ainsert, alookup, hk]
      · simp [ainsert, alookup, hk, hk2, ih]

theorem rlookup_rinsert_self (k : String) (v : FileCheckResult)
    (l : List (String × FileCheckResult)) :
    rlookup k (rinsert k v l) = some v := by
  induction l with
  | nil => simp [rinsert, rlookup]
  | cons p rest ih =>
    obtain ⟨k2, v2⟩ := p
    by_cases hk : k2 = k <;> simp [rinsert, rlookup, hk, ih]

theorem rlookup_rinsert_ne (k k2 : String) (v : FileCheckResult)
    (l : List (String × FileCheckResult)) (h : k2 ≠ k) :
    rlookup k2 (rinsert k v l) = rlookup k2 l := by
  have h2 : ¬k = k2 := fun hc => h hc.symm
  induction l with
  | nil => simp [rinsert, rlookup, h2]
  | cons p rest ih =>
    obtain ⟨k3, v3⟩ := p
    by_cases hk : k3 = k
    · subst hk
      have h3 : ¬k3 = k2 := fun hc => h hc.symm
      simp [rinsert, rlookup, h3]
    · by_cases hk2 : k3 = k2
      · subst hk2
        simp [rinsert, rlookup, hk]
      · simp [rinsert, rlookup, hk, hk2, ih]

/-- The heuristic fallback label is one of the four scalar labels. -/
theorem guess_label_ne_enum (key : String) : guess_label key ≠ "enum" := by
  simp only [guess_label]
  split_ifs <;> decide

/-- `choose_validator` never produces the label `"enum"`: that label is
attached only by the enum override inside `get_entry_metadata`. -/
theorem choose_label_ne_enum (key value : String) :
    (choose_validator key value).2 ≠ "enum" := by
  unfold choose_validator
  by_cases hv : vector_shape value
  · simp [hv]
  · rcases hl : (pyTokens value).getLast? with _ | last
    · simpa [hv, hl] using guess_label_ne_enum key
    · by_cases hint : pyIntParsesL last && !(last.any (fun c => c == '.')) &&
        !((pyLower last).any (fun c => c == 'e'))
      · simp [hv, hl, hint]
      · by_cases hfl : pyFloatParsesL last
        · simp [hv, hl, hint, hfl]
        · simpa [hv, hl, hint, hfl] using guess_label_ne_enum key

/-! ## Claim C4 -/

/-- C4 counterexample: for key `"relaxationFactor"` and value `"linear"` the
classification is not free text — the key-name heuristic does match, because
`"on"` is a substring of `"relaxationfactor"`. -/
theorem claim_C4_counterexample :
    (choose_validator "relaxationFactor" "linear").2 ≠ "text" := by
  decide

/-- C4 (amended): for key `"relaxationFactor"` with value `"linear"`,
`choose_validator` falls through the value-shape rules to the key-name
heuristic, and the boolean-like rule fires (its substring `"on"` occurs in
`"relaxationfactor"`), so the result is `bool_flag` with label
`"boolean-like"`, not free text. -/
theorem claim_C4_amended :
    choose_validator "relaxationFactor" "linear" = (bool_flag, "boolean-like") ∧
    strContainsSub ⟨pyLower "relaxationFactor".data⟩ "on" = true := by
  exact ⟨rfl, rfl⟩

/-! ## Claim C5 -/

/-- C5: whenever the last whitespace token of the semicolon-blanked value
parses as a bare base-10 integer (no dot, no exponent marker), the value is
classified `"integer"` regardless of the key — unless the vector shape rule
(rule 1) applies, which takes precedence. -/
theorem claim_C5 (key value : String) (last : List Char)
    (hlast : (pyTokens value).getLast? = some last)
    (hint : pyIntParsesL last = true)
    (hdot : (last.any (fun c => c == '.')) = false)
    (hexp : ((pyLower last).any (fun c => c == 'e')) = false) :
    (choose_validator key value).2 =
      if vector_shape value then "vector" else "integer" := by
  unfold choose_validator
  by_cases hv : vector_shape value
  · simp [hv]
  · simp [hv, hlast, hint, hdot, hexp]

/-- C5 witness: value `"5"` with key `"nIterations"` is classified integer
(the last-token integer rule fires before the key heuristic). -/
theorem claim_C5_witness :
    (choose_validator "nIterations" "5").2 = "integer" := by
  have h := claim_C5 "nIterations" "5" "5".data (by decide) (by decide)
    (by decide) (by decide)
  rw [h]
  decide

/-! ## Claim C6 -/

/-- C6: a descend into a sub-dictionary immediately followed by an ascend
restores `(baseKey, siblingKeys, index)` — indeed the whole navigation
state, frame stack included — exactly, at any nesting depth. -/
theorem claim_C6 (s : NavState) (subkeys : List String) (_h : subkeys ≠ []) :
    ascend (descend s subkeys) = some s := by
  cases s
  rfl

/-- C6 witness: descend-then-ascend at a concrete nested state. -/
theorem claim_C6_witness :
    ascend (descend ⟨some "boundaryField", ["inlet", "outlet"], 1,
        [(none, ["boundaryField"], 0)]⟩ ["type", "value"]) =
      some ⟨some "boundaryField", ["inlet", "outlet"], 1,
        [(none, ["boundaryField"], 0)]⟩ := by
  exact claim_C6 _ _ (by decide)

/-! ## Claim C8 -/

/-- C8: the post-save refresh re-resolves and overwrites exactly the cache
entry for the edited key; every other key maps to the same tuple as before.
The hypothesis is the successful-save side condition: the engine can read
the key back (on a read failure the refresh leaves the whole cache alone). -/
theorem claim_C8 (eng : Engine) (cache : Cache) (k val : String)
    (h : eng.read_entry k = some val) :
    alookup k (refresh_entry_cache eng cache k) =
      some ⟨val, (choose_validator k val).2, eng.list_subkeys k,
            eng.get_entry_comments k,
            eng.get_entry_info k ++ boundary_condition_info eng k⟩ ∧
    ∀ k2, k2 ≠ k →
      alookup k2 (refresh_entry_cache eng cache k) = alookup k2 cache := by
  unfold refresh_entry_cache
  rw [h]
  exact ⟨alookup_ainsert_self k _ cache,
    fun k2 hk2 => alookup_ainsert_ne k k2 _ cache hk2⟩

/-- C8 witness: refreshing `"zq"` rebuilds its tuple and leaves the
unrelated cached key `"other"` untouched. -/
theorem claim_C8_witness :
    alookup "zq" (refresh_entry_cache demoEnumEngine demoCache "zq") =
      some ⟨"bar", (choose_validator "zq" "bar").2,
            demoEnumEngine.list_subkeys "zq",
            demoEnumEngine.get_entry_comments "zq",
            demoEnumEngine.get_entry_info "zq" ++
              boundary_condition_info demoEnumEngine "zq"⟩ ∧
    alookup "other" (refresh_entry_cache demoEnumEngine demoCache "zq") =
      alookup "other" demoCache := by
  have h := claim_C8 demoEnumEngine demoCache "zq" "bar" (by decide)
  exact ⟨h.1, h.2 "other" (by decide)⟩

/-! ## Claim C9 -/

/-- C9: the per-file display label is `"{rel}: {status}"` where the status
is "Not checked" for an absent or unchecked result, "ERROR (n)" for a
checked result with errors, "Warn (n)" for a checked result with warnings
only, and "OK" otherwise. -/
theorem claim_C9 (relOf : String → String) (files : List String)
    (results : Option (List (String × FileCheckResult))) (i : Nat)
    (hi : i < files.length) :
    (check_labels relOf files results).1.getD i "" =
      relOf (files.getD i "") ++ ": " ++
        check_label_status (rlookup (files.getD i "") (results.getD [])) ∧
    (∀ f, rlookup f (results.getD []) = none →
      check_label_status (rlookup f (results.getD [])) = "Not checked") ∧
    (∀ f c, rlookup f (results.getD []) = some c → c.checked = false →
      check_label_status (rlookup f (results.getD [])) = "Not checked") ∧
    (∀ f c, rlookup f (results.getD []) = some c → c.checked = true →
      c.errors ≠ [] →
      check_label_status (rlookup f (results.getD [])) =
        "ERROR (" ++ Nat.repr c.errors.length ++ ")") ∧
    (∀ f c, rlookup f (results.getD []) = some c → c.checked = true →
      c.errors = [] → c.warnings ≠ [] →
      check_label_status (rlookup f (results.getD [])) =
        "Warn (" ++ Nat.repr c.warnings.length ++ ")") ∧
    (∀ f c, rlookup f (results.getD []) = some c → c.checked = true →
      c.errors = [] → c.warnings = [] →
      check_label_status (rlookup f (results.getD [])) = "OK") := by
  refine ⟨?_, ?_, ?_, ?_, ?_, ?_⟩
  · simp [check_labels, List.getD_eq_getElem?_getD, List.getElem?_map,
      List.getElem?_eq_getElem hi]
  · intro f hf
    simp [check_label_status, hf]
  · intro f c hf hc
    simp [check_label_status, hf, hc]
  · intro f c hf hc he
    simp [check_label_status, hf, hc, List.isEmpty_iff, he]
  · intro f c hf hc he hw
    simp [check_label_status, hf, hc, he, List.isEmpty_iff, hw]
  · intro f c hf hc he hw
    simp [check_label_status, hf, hc, he, hw]

/-- C9 witness: a checked result with two errors yields the label
`"f1: ERROR (2)"` in position 0. -/
theorem claim_C9_witness :
    (check_labels (fun f => f) ["f1"]
        (some [("f1", ⟨true, ["e1", "e2"], []⟩)])).1.getD 0 "" = "f1: ERROR (2)" := by
  have h := claim_C9 (fun f => f) ["f1"] (some [("f1", ⟨true, ["e1", "e2"], []⟩)])
    0 (by decide)
  rw [h.1]
  decide

/-! ## Claim C10 -/

/-- C10: the post-edit refresh rebuilds the cached tuple from
`choose_validator` alone and never consults the engine's enum set — even for
a key whose enum set is nonempty, the refreshed label is the heuristic one
(never `"enum"`) and the info lines are exactly the engine info plus the
boundary-condition lines, with no "Allowed values" line appended; a later
cache hit serves that heuristic label, while a fresh resolve from an empty
cache yields `"enum"` again. -/
theorem claim_C10 (eng : Engine) (cache : Cache) (k val : String)
    (hread : eng.read_entry k = some val)
    (henum : eng.get_entry_enum_values k ≠ []) :
    alookup k (refresh_entry_cache eng cache k) =
      some ⟨val, (choose_validator k val).2, eng.list_subkeys k,
            eng.get_entry_comments k,
            eng.get_entry_info k ++ boundary_condition_info eng k⟩ ∧
    (choose_validator k val).2 ≠ "enum" ∧
    (get_entry_metadata eng (refresh_entry_cache eng cache k) k).1.type_label =
      (choose_validator k val).2 ∧
    (get_entry_metadata eng [] k).1.type_label = "enum" := by
  have hstore : alookup k (refresh_entry_cache eng cache k) =
      some ⟨val, (choose_validator k val).2, eng.list_subkeys k,
            eng.get_entry_comments k,
            eng.get_entry_info k ++ boundary_condition_info eng k⟩ := by
    unfold refresh_entry_cache
    rw [hread]
    exact alookup_ainsert_self k _ cache
  refine ⟨hstore, choose_label_ne_enum k val, ?_, ?_⟩
  · simp [get_entry_metadata, hstore]
  · rcases hev : eng.get_entry_enum_values k with _ | ⟨e, es⟩
    · exact absurd hev henum
    · simp [get_entry_metadata, alookup, hev]

/-- C10 witness: the key `"zq"` has the nonempty enum set `["foo"]`, yet
after a refresh its cached label is the heuristic `"text"`, while a fresh
resolve yields `"enum"`. -/
theorem claim_C10_witness :
    alookup "zq" (refresh_entry_cache demoEnumEngine [] "zq") =
      some ⟨"bar", (choose_validator "zq" "bar").2,
            demoEnumEngine.list_subkeys "zq",
            demoEnumEngine.get_entry_comments "zq",
            demoEnumEngine.get_entry_info "zq" ++
              boundary_condition_info demoEnumEngine "zq"⟩ ∧
    (choose_validator "zq" "bar").2 = "text" ∧
    (get_entry_metadata demoEnumEngine [] "zq").1.type_label = "enum" := by
  have h := claim_C10 demoEnumEngine [] "zq" "bar" (by decide) (by decide)
  exact ⟨h.1, by decide, h.2.2.2⟩

/-! ## Claim C3 -/

/-- C3 counterexample: for the key `"zq"` (engine enum set `["foo"]`), the
second resolve — a cache hit — re-derives the validator via
`choose_validator`, which accepts `"baz"` even though `"baz"` is not a
member of the enum set; so not every resolve returns a validator accepting
exactly the enum members. -/
theorem claim_C3_counterexample :
    (get_entry_metadata demoEnumEngine
        (get_entry_metadata demoEnumEngine [] "zq").2 "zq").1.validator "baz" = none ∧
    enum_clean "baz" ∉ demoEnumEngine.get_entry_enum_values "zq" := by
  exact ⟨by decide, by decide⟩

/-- C3 (amended): for a key with a nonempty engine enum set, every resolve
returns typeLabel `"enum"` (the label is cached), and the first (cache-miss)
resolve returns a validator accepting exactly the trimmed,
trailing-semicolon-stripped members of the set; but a resolve that hits the
cache re-derives its validator from `choose_validator`, the value-shape /
key-name heuristic, which need not agree with the enum set. -/
theorem claim_C3_amended (eng : Engine) (k : String)
    (henum : eng.get_entry_enum_values k ≠ []) :
    (get_entry_metadata eng [] k).1.type_label = "enum" ∧
    (∀ v, (get_entry_metadata eng [] k).1.validator v = none ↔
      enum_clean v ∈ eng.get_entry_enum_values k) ∧
    (get_entry_metadata eng (get_entry_metadata eng [] k).2 k).1.type_label =
      "enum" ∧
    (get_entry_metadata eng (get_entry_metadata eng [] k).2 k).1.validator =
      (choose_validator k (get_entry_metadata eng [] k).1.value).1 := by
  rcases hev : eng.get_entry_enum_values k with _ | ⟨e, es⟩
  · exact absurd hev henum
  refine ⟨?_, ?_, ?_, ?_⟩
  · simp [get_entry_metadata, alookup, hev]
  · intro v
    simp only [get_entry_metadata, alookup, hev, enum_validator,
      List.isEmpty_cons, Bool.false_eq_true, if_false]
    split_ifs with hmem <;> simp [hmem]
  · simp [get_entry_metadata, alookup, hev, ainsert, alookup_ainsert_self]
  · simp [get_entry_metadata, alookup, hev, ainsert, alookup_ainsert_self]

/-- C3 witness: the first resolve of `"zq"` classifies it `"enum"` and its
validator accepts the member `"foo"`. -/
theorem claim_C3_amended_witness :
    (get_entry_metadata demoEnumEngine [] "zq").1.type_label = "enum" ∧
    (get_entry_metadata demoEnumEngine [] "zq").1.validator "foo" = none := by
  have h := claim_C3_amended demoEnumEngine "zq" (by decide)
  exact ⟨h.1, (h.2.1 "foo").mpr (by decide)⟩

/-! ## Lemmas about the verification run trace -/

theorem rlookup_mem_ne_none (l : List (String × FileCheckResult))
    (pr : String × FileCheckResult) (h : pr ∈ l) : rlookup pr.1 l ≠ none := by
  induction l with
  | nil => cases h
  | cons q rest ih =>
    obtain ⟨k2, v2⟩ := q
    rw [List.mem_cons] at h
    rcases h with h | h
    · subst h
      simp [rlookup]
    · by_cases hk : k2 = pr.1 <;> simp [rlookup, hk, ih h]

theorem rlookup_of_valsOk (check : String → List String × List String)
    (l : List (String × FileCheckResult))
    (hl : ∀ pr ∈ l, pr.2 = fileResult check pr.1) (p : String) :
    rlookup p l = none ∨ rlookup p l = some (fileResult check p) := by
  induction l with
  | nil => exact Or.inl rfl
  | cons q rest ih =>
    obtain ⟨k2, v2⟩ := q
    by_cases hk : k2 = p
    · subst hk
      have := hl (k2, v2) (List.mem_cons_self _ _)
      simp only at this
      simp [rlookup, this]
    · have ih2 := ih (fun pr hpr => hl pr (List.mem_cons_of_mem _ hpr))
      simpa [rlookup, hk] using ih2

theorem valsOk_rinsert (check : String → List String × List String)
    (l : List (String × FileCheckResult)) (k : String)
    (hl : ∀ pr ∈ l, pr.2 = fileResult check pr.1) :
    ∀ pr ∈ rinsert k (fileResult check k) l, pr.2 = fileResult check pr.1 := by
  induction l with
  | nil =>
    intro pr hpr
    rw [rinsert, List.mem_singleton] at hpr
    subst hpr
    rfl
  | cons q rest ih =>
    obtain ⟨k2, v2⟩ := q
    intro pr hpr
    by_cases hk : k2 = k
    · subst hk
      rw [rinsert, if_pos rfl, List.mem_cons] at hpr
      rcases hpr with h | h
      · subst h; rfl
      · exact hl pr (List.mem_cons_of_mem _ h)
    · rw [rinsert, if_neg hk, List.mem_cons] at hpr
      rcases hpr with h | h
      · subst h; exact hl (k2, v2) (List.mem_cons_self _ _)
      · exact ih (fun pr hpr => hl pr (List.mem_cons_of_mem _ hpr)) pr h

theorem rlookup_rinsert_ne_none (k p : String) (v : FileCheckResult)
    (l : List (String × FileCheckResult)) (h : rlookup p l ≠ none) :
    rlookup p (rinsert k v l) ≠ none := by
  by_cases hk : p = k
  · subst hk
    simp [rlookup_rinsert_self]
  · rwa [rlookup_rinsert_ne k p v l hk]

/-- All stored entries survive, with the same values, into any state whose
results are value-correct and domain-larger. -/
theorem entriesKeptB_of (check : String → List String × List String)
    (s s2 : CheckState)
    (h1 : ∀ pr ∈ s.check_results.getD [], pr.2 = fileResult check pr.1)
    (h2 : ∀ pr ∈ s2.check_results.getD [], pr.2 = fileResult check pr.1)
    (hdom : ∀ p, rlookup p (s.check_results.getD []) ≠ none →
      rlookup p (s2.check_results.getD []) ≠ none) :
    entriesKeptB s s2 = true := by
  unfold entriesKeptB
  rw [List.all_eq_true]
  intro pr hpr
  rw [decide_eq_true_eq]
  have hw := h1 pr hpr
  have hne := hdom pr.1 (rlookup_mem_ne_none _ pr hpr)
  rcases rlookup_of_valsOk check _ h2 pr.1 with h | h
  · exact absurd h hne
  · rw [h, hw]

theorem runAccum_results (check : String → List String × List String) :
    ∀ (fs : List String) (s : CheckState),
    (runAccum check s fs).check_results.getD [] =
      fs.foldl (fun acc f => rinsert f (fileResult check f) acc)
        (s.check_results.getD []) := by
  intro fs
  induction fs with
  | nil => intro s; rfl
  | cons f rest ih =>
    intro s
    rw [runAccum, ih, List.foldl_cons]
    rfl

theorem valsOk_foldl (check : String → List String × List String) :
    ∀ (fs : List String) (acc : List (String × FileCheckResult)),
    (∀ pr ∈ acc, pr.2 = fileResult check pr.1) →
    ∀ pr ∈ fs.foldl (fun acc f => rinsert f (fileResult check f) acc) acc,
      pr.2 = fileResult check pr.1 := by
  intro fs
  induction fs with
  | nil => intro acc hacc; simpa using hacc
  | cons f rest ih =>
    intro acc hacc
    rw [List.foldl_cons]
    exact ih _ (valsOk_rinsert check acc f hacc)

theorem stepStates_valsOk (check : String → List String × List String) :
    ∀ (fs : List String) (s : CheckState),
    (∀ pr ∈ s.check_results.getD [], pr.2 = fileResult check pr.1) →
    ∀ st ∈ stepStates check s fs,
      ∀ pr ∈ st.check_results.getD [], pr.2 = fileResult check pr.1 := by
  intro fs
  induction fs with
  | nil => intro s _ st hst; cases hst
  | cons f rest ih =>
    intro s hs st hst
    have h1 : ∀ pr ∈ (resultInsert check s f).check_results.getD [],
        pr.2 = fileResult check pr.1 := by
      simpa [resultInsert] using valsOk_rinsert check _ f hs
    have h2 : ∀ pr ∈ (progressUpdate (resultInsert check s f) f).check_results.getD [],
        pr.2 = fileResult check pr.1 := h1
    simp only [stepStates, List.mem_cons] at hst
    rcases hst with h | h | h
    · subst h; exact h1
    · subst h; exact h2
    · exact ih _ h2 st h

/-- The preservation chain: the trace from `s` through the per-file steps on
`fs` down to a final state `t` preserves all stored entries, provided `t`
is value-correct and its domain covers the accumulated one. -/
theorem stepStates_chain (check : String → List String × List String) :
    ∀ (fs : List String) (s t : CheckState),
    (∀ pr ∈ s.check_results.getD [], pr.2 = fileResult check pr.1) →
    (∀ pr ∈ t.check_results.getD [], pr.2 = fileResult check pr.1) →
    (∀ p, rlookup p ((runAccum check s fs).check_results.getD []) ≠ none →
      rlookup p (t.check_results.getD []) ≠ none) →
    tracePreservedB (s :: stepStates check s fs ++ [t]) = true := by
  intro fs
  induction fs with
  | nil =>
    intro s t hs ht hdom
    have hk := entriesKeptB_of check s t hs ht hdom
    simp [stepStates, tracePreservedB, hk]
  | cons f rest ih =>
    intro s t hs ht hdom
    have h1 : ∀ pr ∈ (resultInsert check s f).check_results.getD [],
        pr.2 = fileResult check pr.1 := by
      simpa [resultInsert] using valsOk_rinsert check _ f hs
    have h2 : ∀ pr ∈ (progressUpdate (resultInsert check s f) f).check_results.getD [],
        pr.2 = fileResult check pr.1 := h1
    have hk1 : entriesKeptB s (resultInsert check s f) = true := by
      refine entriesKeptB_of check _ _ hs h1 ?_
      intro p hp
      simpa [resultInsert] using rlookup_rinsert_ne_none f p _ _ hp
    have hk2 : entriesKeptB (resultInsert check s f)
        (progressUpdate (resultInsert check s f) f) = true := by
      refine entriesKeptB_of check _ _ h1 h2 ?_
      intro p hp
      exact hp
    have htail := ih (progressUpdate (resultInsert check s f) f) t h2 ht hdom
    simp only [stepStates, List.cons_append, tracePreservedB, Bool.and_eq_true]
    simp only [List.cons_append, tracePreservedB, Bool.and_eq_true] at htail
    exact ⟨hk1, hk2, htail⟩

/-- The last published state of a run is the final lock-guarded block. -/
theorem runTrace_getLast (files : List String)
    (check : String → List String × List String) (pf : Option Nat) :
    (runTrace files check pf).getLast? = some (runFinal files check pf) := by
  simp only [runTrace]
  exact List.getLast?_concat _

/-! ## Claim C1 -/

/-- C1 counterexample: with files `["a", "b"]` and a process-level exception
after one file completed, the final results map is empty — it is not the
map of per-file results already collected before the failure. -/
theorem claim_C1_counterexample :
    (runFinal ["a", "b"] demoCheck (some 1)).check_results ≠
      some ((runAccum demoCheck (initState ["a", "b"])
        (["a", "b"].take 1)).check_results.getD []) := by
  decide

/-- C1 (amended): if a process-level exception occurs during a verification
run (after `j` of the files completed), the run ends with `inProgress` set
to false and the results map reset to the empty map — the per-file results
already collected before the failure are discarded, not kept. -/
theorem claim_C1_amended (files : List String)
    (check : String → List String × List String) (j : Nat)
    (_hj : j < files.length) :
    (runTrace files check (some j)).getLast? =
      some (runFinal files check (some j)) ∧
    (runFinal files check (some j)).check_in_progress = false ∧
    (runFinal files check (some j)).check_results = some [] := by
  exact ⟨runTrace_getLast files check (some j), rfl, rfl⟩

/-- C1 witness: the aborted two-file run ends not-in-progress with an empty
results map. -/
theorem claim_C1_amended_witness :
    (runTrace ["a", "b"] demoCheck (some 1)).getLast? =
      some (runFinal ["a", "b"] demoCheck (some 1)) ∧
    (runFinal ["a", "b"] demoCheck (some 1)).check_in_progress = false ∧
    (runFinal ["a", "b"] demoCheck (some 1)).check_results = some [] := by
  exact claim_C1_amended ["a", "b"] demoCheck 1 (by decide)

/-! ## Claim C2 -/

/-- C2 counterexample: in a run aborted by a process-level exception after
one of two files completed, the stored result for the completed file is
removed by the final reset — so it is not true that, across every pair of
successive states of a run, stored results are never removed. -/
theorem claim_C2_counterexample :
    tracePreservedB (runTrace ["a", "b"] demoCheck (some 1)) = false := by
  decide

/-- C2 (amended): within a verification run that ends without a
process-level exception, every stored per-file result survives every pair of
successive published states unchanged (entries only move from absent to
present, never removed or replaced); and in every run — aborted or not —
every stored result is terminal (`checked = true`). -/
theorem claim_C2_amended (files : List String)
    (check : String → List String × List String) :
    tracePreservedB (runTrace files check none) = true ∧
    ∀ pf, allTerminalB (runTrace files check pf) = true := by
  have hvals0 : ∀ pr ∈ (initState files).check_results.getD [],
      pr.2 = fileResult check pr.1 := by
    intro pr hpr
    simp [initState] at hpr
  have hvalsFin : ∀ pr ∈ (runFinal files check none).check_results.getD [],
      pr.2 = fileResult check pr.1 := by
    intro pr hpr
    simp only [runFinal, Option.getD_some] at hpr
    exact valsOk_foldl check files [] (fun pr hpr => by cases hpr) pr hpr
  constructor
  · simp only [runTrace]
    refine stepStates_chain check files (initState files)
      (runFinal files check none) hvals0 hvalsFin ?_
    intro p hp
    rw [runAccum_results] at hp
    simp only [runFinal, Option.getD_some]
    simpa [verify_case_results, initState] using hp
  · intro pf
    unfold allTerminalB
    simp only [runTrace]
    rw [List.all_eq_true]
    intro st hst
    rw [List.all_eq_true]
    intro pr hpr
    have hterm : pr.2 = fileResult check pr.1 → pr.2.checked = true := by
      intro h
      rw [h]
      rfl
    rcases List.mem_cons.mp hst with h | h
    · subst h
      simp [initState] at hpr
    · rcases List.mem_append.mp h with h | h
      · exact hterm (stepStates_valsOk check _ (initState files) hvals0 st h pr hpr)
      · have hfin : st = runFinal files check pf := by
          simpa using h
        subst hfin
        cases pf with
        | none =>
          simp only [runFinal, Option.getD_some] at hpr
          exact hterm
            (valsOk_foldl check files [] (fun pr hpr => by cases hpr) pr hpr)
        | some j =>
          simp [runFinal] at hpr

/-! ## Lemmas about metadata resolution and search -/

/-- Resolving metadata through a consistent cache yields the engine's value
and comments (whether the call hits or misses), and keeps the cache
consistent. -/
theorem get_entry_metadata_consistent (eng : Engine) (cache : Cache)
    (key : String) (hc : cacheConsistent eng cache) :
    (get_entry_metadata eng cache key).1.value = engineValue eng key ∧
    (get_entry_metadata eng cache key).1.comments = eng.get_entry_comments key ∧
    cacheConsistent eng (get_entry_metadata eng cache key).2 := by
  rcases hlook : alookup key cache with _ | ce
  · refine ⟨?_, ?_, ?_⟩
    · simp [get_entry_metadata, hlook, engineValue]
    · simp [get_entry_metadata, hlook]
    · intro k2 ce2 h2
      simp only [get_entry_metadata, hlook] at h2
      by_cases hk : k2 = key
      · subst hk
        rw [alookup_ainsert_self] at h2
        cases h2
        exact ⟨rfl, rfl⟩
      · rw [alookup_ainsert_ne _ _ _ _ hk] at h2
        exact hc k2 ce2 h2
  · refine ⟨?_, ?_, ?_⟩
    · simp [get_entry_metadata, hlook, (hc key ce hlook).1]
    · simp [get_entry_metadata, hlook, (hc key ce hlook).2]
    · intro k2 ce2 h2
      simp only [get_entry_metadata, hlook] at h2
      exact hc k2 ce2 h2

/-- The search loop equals a first-match scan over the cyclic index
sequence, for any consistent starting cache. -/
theorem search_entries_loop_spec (eng : Engine) (kws : List String) (i : Nat)
    (q : String) (d : Int) :
    ∀ (r step : Nat) (cache : Cache), cacheConsistent eng cache →
    search_entries_loop eng kws i (pyLower q.data) d step r cache =
      (scanIndices i d kws.length step r).find?
        (fun idx => searchHit eng q (kws.getD idx "")) := by
  intro r
  induction r with
  | zero => intro step cache hc; rfl
  | succ r ih =>
    intro step cache hc
    simp only [search_entries_loop, scanIndices]
    obtain ⟨hval, hcom, hc2⟩ := get_entry_metadata_consistent eng cache
      (kws.getD (((i : Int) + d * (step : Int)).emod (kws.length : Int)).toNat "") hc
    rw [hval, hcom, ih (step + 1) _ hc2]
    cases hmatch : searchHit eng q
        (kws.getD (((i : Int) + d * (step : Int)).emod (kws.length : Int)).toNat "") with
    | false =>
      simp only [searchHit, searchHaystack, List.getD_eq_getElem?_getD] at hmatch
      simp [List.find?_cons, searchHit, searchHaystack, hmatch]
    | true =>
      simp only [searchHit, searchHaystack, List.getD_eq_getElem?_getD] at hmatch
      simp [List.find?_cons, searchHit, searchHaystack, hmatch]

/-! ## Claim C7 -/

/-- C7: on a non-empty sibling list of length `n`, the search scans
cyclically starting at `(index + direction) mod n` for at most `n` steps and
returns the first index whose lowercased key-value-comments haystack
contains the lowercased query; when nothing matches after the full cycle,
the caller reports no matches and leaves the index unchanged. -/
theorem claim_C7 (eng : Engine) (cache : Cache) (kws : List String) (i : Nat)
    (q : String) (d : Int) (hc : cacheConsistent eng cache) (hk : kws ≠ []) :
    search_entries eng cache kws i q d =
      (scanIndices i d kws.length 1 kws.length).find?
        (fun idx => searchHit eng q (kws.getD idx "")) ∧
    (search_entries eng cache kws i q 1 = none →
      entry_browser_search_outcome eng cache kws i q =
        (i, some ("No matches for " ++ sq ++ q ++ sq ++ "."))) := by
  constructor
  · rw [search_entries, if_neg (by simpa [List.isEmpty_iff] using hk)]
    exact search_entries_loop_spec eng kws i q d kws.length 1 cache hc
  · intro hnone
    rw [entry_browser_search_outcome, hnone]

/-- C7 witness: a query matching no entry of `["alpha", "beta"]` reports no
matches and leaves the index at 0. -/
theorem claim_C7_witness :
    entry_browser_search_outcome demoSearchEngine [] ["alpha", "beta"] 0 "qqq" =
      (0, some ("No matches for " ++ sq ++ "qqq" ++ sq ++ ".")) := by
  have h := claim_C7 demoSearchEngine [] ["alpha", "beta"] 0 "qqq" 1
    (fun k ce hce => nomatch hce) (by decide)
  exact h.2 (by rw [h.1]; decide)

end OfTui
